import Mathlib

/-!
Verification of the genome selection module (select_taxa.py).

Python strings are modelled as lists of characters (PStr), so that the
single-character splits performed by the source (on tab, newline, comma and
pipe) become List.splitOn on a character, with Python semantics
(empty pieces are kept, the empty string splits to one empty piece).
Python dictionaries built from pair generators are modelled as association
lists with a last-occurrence-wins lookup (dictLookup), matching the
behaviour of dict(...) construction and of dict.update.
Fallible code (assert statements, KeyError, ftplib errors) is modelled
with Except.
-/

/-- A Python string: a list of characters. -/
abbrev PStr := List Char

/-- A value stored in a genome record: either a plain string field or a
list-of-strings field produced by splitting a multi-valued column. -/
inductive FieldVal where
  | str : PStr → FieldVal
  | lst : List PStr → FieldVal
deriving DecidableEq, Repr

/-- One genome record: the dictionary built by dict(zip(columns, values)) in
the source, modelled as an association list from column name to field value. -/
abbrev Genome := List (PStr × FieldVal)

/-- Lookup in a Python dictionary built from an association list of pairs:
when a key occurs several times the later pair wins, exactly as repeated
assignment into a dict keeps the last value. -/
def dictLookup {α β : Type} [DecidableEq α] : List (α × β) → α → Option β
  | [], _ => none
  | p :: rest, k =>
    match dictLookup rest k with
    | some v => some v
    | none => if p.1 = k then some p.2 else none

/-- FieldVal access genome[column] in the source, returning none where Python
would raise KeyError. -/
def glookup (g : Genome) (k : PStr) : Option FieldVal :=
  dictLookup g k

/-- Python truthiness of a record field: a string is truthy iff nonempty, a
list is truthy iff nonempty. -/
def truthy : FieldVal → Bool
  | .str s => !s.isEmpty
  | .lst l => !l.isEmpty

/-! ## Recency checks (select_taxa.py lines 39-40 and 262-264)

The metadata of one local file: whether the path exists, its size in bytes
and its last-modified time in seconds. -/

structure FileMeta where
  pathExists : Bool
  size : Nat
  mtime : Int
deriving DecidableEq, Repr

/-- 24 hours in seconds, the constant time_between_downloads at line 39. -/
def timeBetweenDownloads : Int := 24 * 60 * 60

/-- 30 days in seconds, the window used at line 263. -/
def monthSeconds : Int := 30 * 24 * 60 * 60

/-- The condition at line 40 deciding that the catalog snapshot must be
downloaded again: the path is not a file, or its modification time is older
than now minus 24 hours.  The file size is not consulted. -/
def catalogNeedsDownload (f : FileMeta) (now : Int) : Bool :=
  !f.pathExists || decide (f.mtime < now - timeBetweenDownloads)

/-- The condition at line 264 deciding that a genome file must be downloaded
again: the path does not exist, or the file is empty, or its modification
time is older than now minus 30 days. -/
def genomeFileNeedsDownload (f : FileMeta) (now : Int) : Bool :=
  !f.pathExists || f.size == 0 || decide (f.mtime < now - monthSeconds)

/-- The recency predicate as the specification words it: the path exists,
has non-zero size, and its last-modified time is more recent than now minus
the staleness window. -/
def isFreshSpec (f : FileMeta) (maxAge : Int) (now : Int) : Bool :=
  f.pathExists && decide (0 < f.size) && decide (now - maxAge < f.mtime)

/-! ## Identifier resolution (select_genomes_by_ids, lines 15-33) -/

/-- Errors that abort select_genomes_by_ids: a missing dictionary key
(Python KeyError while building an index) or the failed disjointness
assertion at line 22. -/
inductive ResolveErr where
  | keyError : ResolveErr
  | catalogIntegrityError : ResolveErr
deriving DecidableEq, Repr

/-- The column name "RefSeq project ID". -/
def refseqIdKey : PStr := "RefSeq project ID".toList

/-- The column name "Project ID" (the GenBank project ID column). -/
def projectIdKey : PStr := "Project ID".toList

/-- Building one of the two indexes at lines 18-19:
dict((genome[field], genome) for genome in genomes).  The pair list is kept
in catalog order; dictLookup on it gives the last-wins dict semantics.  A
genome without the field raises KeyError. -/
def buildIndex (field : PStr) : List Genome → Except ResolveErr (List (FieldVal × Genome))
  | [] => .ok []
  | g :: rest =>
    match glookup g field with
    | none => .error .keyError
    | some v =>
      match buildIndex field rest with
      | .error e => .error e
      | .ok pairs => .ok ((v, g) :: pairs)

/-- The key set of an index: the first components of its pairs. -/
def keysOf (l : List (FieldVal × Genome)) : List FieldVal :=
  l.map Prod.fst

/-- The disjointness test of line 22:
set(refseq_genomes).isdisjoint(set(genbank_genomes)). -/
def disjointKeys (refseq genbank : List (FieldVal × Genome)) : Bool :=
  (keysOf refseq).all (fun k => !((keysOf genbank).contains k))

/-- The match construction of lines 25-26: a dict of the RefSeq hits over
the requested ids, then updated with the dict of GenBank hits.  dict.update
makes later pairs win, which the last-wins dictLookup over the appended
list reproduces. -/
def matchIds (refseq genbank : List (FieldVal × Genome)) (ids : List PStr) :
    List (PStr × Genome) :=
  ids.filterMap (fun q => (dictLookup refseq (.str q)).map (fun g => (q, g)))
    ++ ids.filterMap (fun q => (dictLookup genbank (.str q)).map (fun g => (q, g)))

/-- select_genomes_by_ids, lines 15-33: build the two indexes, assert key
disjointness, build the match mapping, and compute the list of requested
ids that are warned about because they matched neither index.  Returns the
match mapping together with that warning list. -/
def selectGenomesByIds (genomes : List Genome) (ids : List PStr) :
    Except ResolveErr (List (PStr × Genome) × List PStr) :=
  match buildIndex refseqIdKey genomes with
  | .error e => .error e
  | .ok refseq =>
    match buildIndex projectIdKey genomes with
    | .error e => .error e
    | .ok genbank =>
      if disjointKeys refseq genbank then
        let found := matchIds refseq genbank ids
        .ok (found, ids.filter (fun q => (dictLookup found q).isNone))
      else .error .catalogIntegrityError

/-! ## Catalog parsing (parse of the genomes table, lines 52-101) -/

/-- Parse errors: a data row whose tab-separated value count differs from
the declared column count (the assert at lines 83-85, carrying the line and
the expected and actual counts), or a Python KeyError raised by the
require-refseq filter at line 98 when a record lacks the RefSeq column. -/
inductive ParseErr where
  | malformedRow : PStr → Nat → Nat → ParseErr
  | keyError : ParseErr
deriving DecidableEq, Repr

/-- The header-line marker of line 71. -/
def columnsMarker : PStr := "## Columns:".toList

/-- The comma-separated column suffix of line 77. -/
def commaSuffix : PStr := " (comma separated)".toList

/-- The pipe-separated column suffix of line 77. -/
def pipeSuffix : PStr := " (pipe separated)".toList

/-- The comment test of line 69: the first tab-separated value starts with
a hash or with a quote followed by a hash. -/
def isCommentVals (values : List PStr) : Bool :=
  (['#'].isPrefixOf (values.headD [])) || (['"', '#'].isPrefixOf (values.headD []))

/-- Quote stripping of line 73: x[1:-1] drops the first and last character. -/
def stripQuotes (x : PStr) : PStr :=
  (x.drop 1).dropLast

/-- The suffix handling of lines 76-80 for one column name: if the name ends
in one of the two recognized suffixes, strip the suffix and register the
matching separator character.  At most one suffix can match. -/
def registerColumn (c : PStr) : PStr × Option Char :=
  if commaSuffix.isSuffixOf c then (c.take (c.length - commaSuffix.length), some ',')
  else if pipeSuffix.isSuffixOf c then (c.take (c.length - pipeSuffix.length), some '|')
  else (c, none)

/-- The parser state while scanning the catalog lines: the declared column
names, the registered multi-valued columns with their separators, and the
genome records accumulated so far. -/
structure ParseState where
  columns : List PStr
  splitable : List (PStr × Char)
  genomes : List Genome
deriving DecidableEq, Repr

/-- Processing of one header line (lines 71-80): strip quotes from every
column name, strip recognized suffixes and add the registered separators to
the splitable-column dictionary. -/
def processHeader (st : ParseState) (vals : List PStr) : ParseState :=
  let pairs := (vals.map stripQuotes).map registerColumn
  { st with
    columns := pairs.map Prod.fst
    splitable := st.splitable ++
      pairs.filterMap (fun p => p.2.map (fun sep => (p.1, sep))) }

/-- The value transformation of lines 90-93 for one column: a value under a
registered multi-valued column becomes the empty list when it has at most
one character and is otherwise split on the registered separator; any other
value stays a plain string. -/
def splitValue (splitable : List (PStr × Char)) (c v : PStr) : FieldVal :=
  match dictLookup splitable c with
  | some sep => if v.length ≤ 1 then .lst [] else .lst (v.splitOn sep)
  | none => .str v

/-- The record built from one data row (lines 88-93):
dict(zip(columns, values)), with multi-valued columns split. -/
def dataGenome (st : ParseState) (values : List PStr) : Genome :=
  (st.columns.zip values).map (fun cv => (cv.1, splitValue st.splitable cv.1 cv.2))

/-- The progressive filter of line 98:
genomes s.t. genome\x5b'RefSeq project ID'\x5d is truthy, evaluated left to
right, raising KeyError on the first record lacking the column. -/
def requireRefseqFilter : List Genome → Except ParseErr (List Genome)
  | [] => .ok []
  | g :: rest =>
    match glookup g refseqIdKey with
    | none => .error .keyError
    | some v =>
      match requireRefseqFilter rest with
      | .error e => .error e
      | .ok rest2 => .ok (if truthy v then g :: rest2 else rest2)

/-- Processing of one line of the catalog (the loop body, lines 62-98):
skip empty lines, handle comment lines (retrieving column names from the
header line), check the column count of data rows, build the record, and
when require_refseq is set re-filter the accumulated records. -/
def processLine (req : Bool) (st : ParseState) (line : PStr) : Except ParseErr ParseState :=
  if line.length = 0 then .ok st
  else
    let values := line.splitOn '\t'
    if isCommentVals values then
      if values.headD [] = columnsMarker then .ok (processHeader st (values.drop 1))
      else .ok st
    else if values.length ≠ st.columns.length then
      .error (.malformedRow line st.columns.length values.length)
    else
      let gs := st.genomes ++ [dataGenome st values]
      if req then
        match requireRefseqFilter gs with
        | .error e => .error e
        | .ok gs2 => .ok { st with genomes := gs2 }
      else .ok { st with genomes := gs }

/-- The whole line loop of lines 62-101, returning the accumulated records. -/
def processLines (req : Bool) (st : ParseState) : List PStr → Except ParseErr (List Genome)
  | [] => .ok st.genomes
  | l :: rest =>
    match processLine req st l with
    | .error e => .error e
    | .ok st2 => processLines req st2 rest

/-- The parse of the genomes table (lines 52-101): split the text on
newlines and run the line loop from the empty state. -/
def parseGenomesTable (text : PStr) (req : Bool) : Except ParseErr (List Genome) :=
  processLines req ⟨[], [], []⟩ (text.splitOn '\n')

/-! ## Remote file retrieval (download_genome_files and helper,
lines 185-243 and 257-285) -/

/-- A remote (ftplib) error: a permanent error carrying its message, as
error_perm does, or any other remote error. -/
inductive RemoteErr where
  | permError : PStr → RemoteErr
  | otherError : PStr → RemoteErr
deriving DecidableEq, Repr

/-- The message fragment tested at line 232. -/
def noSuchFileMsg : PStr := "No such file or directory".toList

/-- Python substring containment: the pattern occurs somewhere in the text. -/
def containsSub (pat : PStr) : PStr → Bool
  | [] => pat.isPrefixOf []
  | h :: t => pat.isPrefixOf (h :: t) || containsSub pat t

/-- The try/except of lines 229-236 around the optional feature-table
download: a permanent error whose message mentions a missing file is logged
and recorded as an absent path; every other error re-raises. -/
def handlePtt (r : Except RemoteErr PStr) : Except RemoteErr (Option PStr) :=
  match r with
  | .ok p => .ok (some p)
  | .error (.permError msg) =>
    if containsSub noSuchFileMsg msg then .ok none else .error (.permError msg)
  | .error e => .error e

/-- The accession loop of lines 226-237: for every accession stem download
the gbk file (any error is fatal), then the ptt file through the tolerant
handler, and collect triples of project id, gbk path and optional ptt
path.  The two download actions are abstracted as functions from the stem
to a result. -/
def downloadLoop (pid : PStr) (gbkDl pttDl : PStr → Except RemoteErr PStr) :
    List PStr → Except RemoteErr (List (PStr × PStr × Option PStr))
  | [] => .ok []
  | acc :: rest =>
    match gbkDl acc with
    | .error e => .error e
    | .ok gbk =>
      match handlePtt (pttDl acc) with
      | .error e => .error e
      | .ok ptt =>
        match downloadLoop pid gbkDl pttDl rest with
        | .error e => .error e
        | .ok tail => .ok ((pid, gbk, ptt) :: tail)

/-- Errors of one file download: a remote transfer error, or the failed
assert of line 280 when the transferred file has no content. -/
inductive DlErr where
  | remote : RemoteErr → DlErr
  | emptyDownload : DlErr
deriving DecidableEq, Repr

/-- The local target file as the download helper sees it: absent, or
present with a modification time and its content bytes. -/
def metaOf (target : Option (Int × List Nat)) : FileMeta :=
  match target with
  | none => ⟨false, 0, 0⟩
  | some mc => ⟨true, mc.2.length, mc.1⟩

/-- The body of the download helper (lines 257-285) over an abstract
filesystem: when the recency check of line 264 demands a download, the
transfer writes only to a fresh temporary file, the result is checked to be
non-empty, and only then is the temporary file moved onto the target path.
The returned pair is the outcome together with the final state of the
target path; on the reuse branch and on every error branch the target is
untouched. -/
def downloadGenomeFileFS (target : Option (Int × List Nat)) (now : Int)
    (transfer : Except RemoteErr (List Nat)) :
    Except DlErr Unit × Option (Int × List Nat) :=
  if genomeFileNeedsDownload (metaOf target) now then
    match transfer with
    | .error e => (.error (.remote e), target)
    | .ok bytes =>
      if bytes.length = 0 then (.error .emptyDownload, target)
      else (.ok (), some (now, bytes))
  else (.ok (), target)

/-! ## Concrete records used to instantiate the theorems -/

/-- A record whose RefSeq project ID is "1" and GenBank project ID is "7". -/
def exRecA : Genome := [(refseqIdKey, FieldVal.str ['1']), (projectIdKey, FieldVal.str ['7'])]

/-- A record whose RefSeq project ID is "8" and GenBank project ID is "1". -/
def exRecB : Genome := [(refseqIdKey, FieldVal.str ['8']), (projectIdKey, FieldVal.str ['1'])]

/-- A record with an empty RefSeq project ID and GenBank project ID "5". -/
def exRecE1 : Genome := [(refseqIdKey, FieldVal.str []), (projectIdKey, FieldVal.str ['5'])]

/-- A second record with an empty RefSeq project ID and GenBank project ID "6". -/
def exRecE2 : Genome := [(refseqIdKey, FieldVal.str []), (projectIdKey, FieldVal.str ['6'])]

/-- A small catalog text: a header line declaring three columns, one of
them comma separated, followed by two data rows, the second with an empty
RefSeq project ID. -/
def exCatalogText : PStr :=
  ("## Columns:\t\"A\"\t\"RefSeq project ID\"\t\"L (comma separated)\"\n"
    ++ "1\t2\ta,b\nx\t\ty").toList

/-! ## Theorems -/

/-- Claim C2, counterexample: the recency check guarding the catalog
snapshot does not require a non-zero size.  A zero-byte catalog file whose
modification time equals the current time is not re-downloaded (the check
of line 40 accepts it), although the claimed predicate — exists, non-zero
size, strictly more recent than now minus the window — is false for it.
Moreover both checks accept a file whose modification time equals exactly
now minus the window, which is not strictly more recent than the claimed
bound. -/
theorem c2_counterexample :
    (catalogNeedsDownload ⟨true, 0, 0⟩ 0 = false ∧
      isFreshSpec ⟨true, 0, 0⟩ timeBetweenDownloads 0 = false) ∧
    (genomeFileNeedsDownload ⟨true, 1, 0⟩ monthSeconds = false ∧
      isFreshSpec ⟨true, 1, 0⟩ monthSeconds monthSeconds = false) := by
  decide

/-- Claim C2 (amended): the genome-file check (30-day window) reuses a
cached file iff the path exists, the size is non-zero and the modification
time is at least now minus the window; the catalog check (24-hour window)
reuses a cached file iff the path is a file and the modification time is at
least now minus the window, with no size condition. -/
theorem c2_recency_amended (f : FileMeta) (now : Int) :
    (catalogNeedsDownload f now = false ↔
      (f.pathExists = true ∧ now - timeBetweenDownloads ≤ f.mtime)) ∧
    (genomeFileNeedsDownload f now = false ↔
      (f.pathExists = true ∧ f.size ≠ 0 ∧ now - monthSeconds ≤ f.mtime)) := by
  obtain ⟨e, s, m⟩ := f
  constructor
  · simp [catalogNeedsDownload, not_lt]
  · simp [genomeFileNeedsDownload, not_lt, and_assoc]

/-- Witness for the amended claim C2: a one-byte file modified right now is
reused by the catalog check. -/
theorem c2_recency_amended_witness :
    catalogNeedsDownload ⟨true, 1, 100⟩ 100 = false :=
  (c2_recency_amended ⟨true, 1, 100⟩ 100).1.mpr (by decide)

/-- Claim C8: the download helper writes transferred bytes only to the
temporary file; the target path is rewritten only after a complete transfer
has produced non-empty content.  Consequently the final target state is
either the unchanged previous state or the complete transferred bytes, a
failed transfer leaves the target unchanged, an empty transfer result
leaves the target unchanged, and both of those cases surface as errors when
a download was attempted. -/
theorem c8_atomic_download (target : Option (Int × List Nat)) (now : Int)
    (transfer : Except RemoteErr (List Nat)) :
    ((downloadGenomeFileFS target now transfer).2 = target ∨
      ∃ bytes, transfer = .ok bytes ∧ bytes ≠ [] ∧
        (downloadGenomeFileFS target now transfer).2 = some (now, bytes)) ∧
    (∀ e, transfer = .error e →
      (downloadGenomeFileFS target now transfer).2 = target) ∧
    (transfer = .ok [] →
      (downloadGenomeFileFS target now transfer).2 = target) ∧
    (∀ e, transfer = .error e → genomeFileNeedsDownload (metaOf target) now = true →
      (downloadGenomeFileFS target now transfer).1 = .error (.remote e)) ∧
    (transfer = .ok [] → genomeFileNeedsDownload (metaOf target) now = true →
      (downloadGenomeFileFS target now transfer).1 = .error .emptyDownload) := by
  by_cases hneed : genomeFileNeedsDownload (metaOf target) now = true
  · cases transfer with
    | error e => simp [downloadGenomeFileFS, hneed]
    | ok bytes =>
      by_cases hb : bytes.length = 0
      · have : bytes = [] := List.length_eq_zero.mp hb
        subst this
        simp [downloadGenomeFileFS, hneed]
      · have hbne : bytes ≠ [] := fun h => hb (by simp [h])
        refine ⟨Or.inr ⟨bytes, rfl, hbne, ?_⟩, ?_, ?_, ?_, ?_⟩ <;>
          simp [downloadGenomeFileFS, hneed, hb]
        · intro h
          exact absurd h hbne
        · intro h
          exact absurd h hbne
  · have hneed2 : genomeFileNeedsDownload (metaOf target) now = false := by
      revert hneed
      cases genomeFileNeedsDownload (metaOf target) now <;> simp
    simp [downloadGenomeFileFS, hneed2]

/-- Witness for claim C8: a transfer failing with a remote error leaves an
existing cached target untouched. -/
theorem c8_atomic_download_witness :
    (downloadGenomeFileFS (some (0, [7])) 10 (.error (.otherError []))).2 = some (0, [7]) :=
  (c8_atomic_download (some (0, [7])) 10 (.error (.otherError []))).2.1 (.otherError []) rfl

/-- Claim C3: for one accession stem whose required gbk download succeeds,
the optional ptt download tolerates exactly a permanent remote error whose
message mentions a missing file — the feature table is recorded as absent
and the loop continues with the remaining stems — while a permanent error
with any other message and any non-permanent remote error propagate out of
the loop. -/
theorem c3_optional_ptt (pid acc : PStr) (rest : List PStr)
    (gbkDl pttDl : PStr → Except RemoteErr PStr) (gbk : PStr)
    (hgbk : gbkDl acc = .ok gbk) :
    (∀ msg, pttDl acc = .error (.permError msg) →
      containsSub noSuchFileMsg msg = true →
      downloadLoop pid gbkDl pttDl (acc :: rest) =
        (downloadLoop pid gbkDl pttDl rest).map (fun tail => (pid, gbk, none) :: tail)) ∧
    (∀ msg, pttDl acc = .error (.permError msg) →
      containsSub noSuchFileMsg msg = false →
      downloadLoop pid gbkDl pttDl (acc :: rest) = .error (.permError msg)) ∧
    (∀ msg, pttDl acc = .error (.otherError msg) →
      downloadLoop pid gbkDl pttDl (acc :: rest) = .error (.otherError msg)) := by
  refine ⟨?_, ?_, ?_⟩
  · intro msg hptt hmsg
    simp only [downloadLoop, hgbk, hptt, handlePtt, hmsg, if_true]
    cases downloadLoop pid gbkDl pttDl rest <;> simp [Except.map]
  · intro msg hptt hmsg
    simp [downloadLoop, hgbk, hptt, handlePtt, hmsg]
  · intro msg hptt
    simp [downloadLoop, hgbk, hptt, handlePtt]

/-- Witness for claim C3: with a ptt download that reports a missing file
for the first stem and succeeds for the second, the loop completes and
records the first feature table as absent. -/
theorem c3_optional_ptt_witness :
    downloadLoop ['p'] (fun _ => .ok ['g'])
      (fun a => if a = ['a'] then .error (.permError noSuchFileMsg) else .ok ['t'])
      [['a'], ['b']] =
      .ok [(['p'], ['g'], none), (['p'], ['g'], some ['t'])] := by
  have h := (c3_optional_ptt ['p'] ['a'] [['b']]
    (fun _ => .ok ['g'])
    (fun a => if a = ['a'] then .error (.permError noSuchFileMsg) else .ok ['t'])
    ['g'] rfl).1 noSuchFileMsg (by rfl) (by decide)
  rw [h]
  rfl

/-- Claim C5: for a non-empty, non-comment line, the parse aborts with a
malformedRow error carrying the offending line and the expected and actual
counts whenever the tab-split value count differs from the declared column
count — no record for that line (or any later line) reaches the result —
and conversely the parse can return a result only when the counts match. -/
theorem c5_row_count (req : Bool) (st : ParseState) (line : PStr) (rest : List PStr)
    (hne : line ≠ []) (hnc : isCommentVals (line.splitOn '\t') = false) :
    ((line.splitOn '\t').length ≠ st.columns.length →
      processLines req st (line :: rest) =
        .error (.malformedRow line st.columns.length (line.splitOn '\t').length)) ∧
    (∀ gs, processLines req st (line :: rest) = .ok gs →
      (line.splitOn '\t').length = st.columns.length) := by
  have hlen : ¬ line.length = 0 := fun h => hne (List.length_eq_zero.mp h)
  constructor
  · intro hmis
    simp [processLines, processLine, hlen, hnc, hmis]
  · intro gs hok
    by_contra hmis
    simp [processLines, processLine, hlen, hnc, hmis] at hok

/-- Witness for claim C5: with one declared column, a two-value data row
aborts the parse with the malformedRow error carrying that line and the
counts one and two. -/
theorem c5_row_count_witness :
    processLines false ⟨[['c']], [], []⟩ [['a', '\t', 'b']] =
      .error (.malformedRow ['a', '\t', 'b'] 1 2) :=
  (c5_row_count false ⟨[['c']], [], []⟩ ['a', '\t', 'b'] []
    (by decide) (by decide)).1 (by decide)

/-- Claim C6: under a column registered with separator sep, a value that is
the join of at least two non-empty separator-free items parses to exactly
those items in order, and a value of length zero or one parses to the empty
list — including a genuine single-character value. -/
theorem c6_multivalued (splitable : List (PStr × Char)) (c : PStr) (sep : Char)
    (hreg : dictLookup splitable c = some sep) :
    (∀ items : List PStr, 2 ≤ items.length →
      (∀ i ∈ items, i ≠ [] ∧ sep ∉ i) →
      splitValue splitable c ([sep].intercalate items) = .lst items) ∧
    (∀ v : PStr, v.length ≤ 1 → splitValue splitable c v = .lst []) := by
  constructor
  · intro items hlen hitems
    match items, hlen with
    | a :: b :: t, _ =>
      have hint : [sep].intercalate (a :: b :: t) = a ++ sep :: [sep].intercalate (b :: t) := by
        simp [List.intercalate, List.intersperse]
      have hane : a ≠ [] := (hitems a (by simp)).1
      have hlong : ¬ ([sep].intercalate (a :: b :: t)).length ≤ 1 := by
        rw [hint]
        rcases a with _ | ⟨x, a2⟩
        · exact absurd rfl hane
        · simp [List.length_append]
      have hsplit : ([sep].intercalate (a :: b :: t)).splitOn sep = a :: b :: t :=
        List.splitOn_intercalate (a :: b :: t) sep (fun l hl => (hitems l hl).2) (by simp)
      simp [splitValue, hreg, hlong, hsplit]
  · intro v hv
    simp [splitValue, hreg, hv]

/-- Witness for claim C6: under a comma-registered column, the join of the
items a and b parses to those two items, and a lone single character parses
to the empty list. -/
theorem c6_multivalued_witness :
    splitValue [(['L'], ',')] ['L'] ([','].intercalate [['a'], ['b']]) =
      .lst [['a'], ['b']] ∧
    splitValue [(['L'], ',')] ['L'] ['x'] = .lst [] :=
  ⟨(c6_multivalued [(['L'], ',')] ['L'] ',' (by decide)).1 [['a'], ['b']]
      (by decide) (by decide),
    (c6_multivalued [(['L'], ',')] ['L'] ',' (by decide)).2 ['x'] (by decide)⟩

/-- Unfolding lemma for dictLookup on a cons cell. -/
theorem dictLookup_cons {α β : Type} [DecidableEq α] (p : α × β) (l : List (α × β)) (k : α) :
    dictLookup (p :: l) k =
      match dictLookup l k with
      | some v => some v
      | none => if p.1 = k then some p.2 else none := rfl

/-- Lookup in an appended pair list: a hit in the second list wins,
matching dict.update semantics. -/
theorem dictLookup_append {α β : Type} [DecidableEq α] (a b : List (α × β)) (k : α) :
    dictLookup (a ++ b) k =
      match dictLookup b k with
      | some v => some v
      | none => dictLookup a k := by
  induction a with
  | nil =>
    rcases hb : dictLookup b k with _ | v <;> simp [dictLookup, hb]
  | cons p a ih =>
    rw [List.cons_append, dictLookup_cons, ih, dictLookup_cons]
    rcases hb : dictLookup b k with _ | v <;> rcases ha : dictLookup a k with _ | w <;> simp

/-- Lookup in the per-id pair list built by a filterMap over the requested
ids: the key is found iff it is a requested id with a hit, and the value
only depends on the key. -/
theorem dictLookup_filterMap {β : Type} (f : PStr → Option β) (ids : List PStr) (q : PStr) :
    dictLookup (ids.filterMap (fun i => (f i).map (fun g => (i, g)))) q =
      if q ∈ ids then f q else none := by
  induction ids with
  | nil => simp [dictLookup]
  | cons i rest ih =>
    rw [List.filterMap_cons]
    rcases hfi : f i with _ | g
    · simp only [Option.map_none']
      by_cases hqi : q = i
      · subst hqi
        by_cases hq : q ∈ rest <;> simp [ih, hq, hfi]
      · by_cases hq : q ∈ rest <;> simp [ih, hq, hqi]
    · simp only [Option.map_some']
      rw [dictLookup_cons, ih]
      by_cases hqi : q = i
      · subst hqi
        by_cases hq : q ∈ rest
        · rcases hfq : f q with _ | u
          · rw [hfq] at hfi
            exact Option.noConfusion hfi
          · simp [hq, hfq]
        · simp [hq, hfi]
      · by_cases hq : q ∈ rest
        · simp only [hq, if_true, List.mem_cons, hqi, false_or]
          rcases hfq : f q with _ | u <;> simp [hfq, Ne.symm hqi, hq]
        · simp [hq, hqi, Ne.symm hqi]

/-- The lookup behaviour of the match mapping of lines 25-26: a requested
id resolves to its GenBank hit when one exists, else to its RefSeq hit,
and an id that was not requested is absent. -/
theorem matchIds_lookup (refseq genbank : List (FieldVal × Genome)) (ids : List PStr)
    (q : PStr) :
    dictLookup (matchIds refseq genbank ids) q =
      if q ∈ ids then
        match dictLookup genbank (.str q) with
        | some g => some g
        | none => dictLookup refseq (.str q)
      else none := by
  unfold matchIds
  rw [dictLookup_append,
    dictLookup_filterMap (fun i => dictLookup genbank (.str i)) ids q,
    dictLookup_filterMap (fun i => dictLookup refseq (.str i)) ids q]
  by_cases hq : q ∈ ids
  · simp only [hq, if_true]
    rcases hgb : dictLookup genbank (.str q) with _ | g <;> simp
  · simp [hq]

/-- Lookup in an index built by buildIndex: the result is the last genome
in catalog order whose field value equals the key, reflecting that later
duplicate keys overwrite earlier ones during dict construction. -/
theorem buildIndex_lookup (field : PStr) (genomes : List Genome)
    (pairs : List (FieldVal × Genome)) (h : buildIndex field genomes = .ok pairs)
    (v : FieldVal) :
    dictLookup pairs v =
      (genomes.filter (fun g => decide (glookup g field = some v))).getLast? := by
  induction genomes generalizing pairs with
  | nil =>
    simp only [buildIndex] at h
    have h2 : ([] : List (FieldVal × Genome)) = pairs := Except.ok.inj h
    rw [← h2]
    rfl
  | cons g rest ih =>
    rcases hg : glookup g field with _ | w
    · simp [buildIndex, hg] at h
    · rcases hb : buildIndex field rest with e | pairs2
      · simp [buildIndex, hg, hb] at h
      · simp only [buildIndex, hg, hb] at h
        have h2 : (w, g) :: pairs2 = pairs := Except.ok.inj h
        rw [← h2, dictLookup_cons, ih pairs2 hb, List.filter_cons]
        by_cases hw : w = v
        · subst hw
          have hcond : decide (glookup g field = some w) = true := by simp [hg]
          rw [if_pos hcond]
          rcases hfr : rest.filter (fun g2 => decide (glookup g2 field = some w))
            with _ | ⟨f0, fr2⟩
          · simp
          · rw [List.getLast?_cons_cons]
            rcases hl2 : (f0 :: fr2).getLast? with _ | u
            · exact absurd hl2 (by simp)
            · rfl
        · have hcond : decide (glookup g field = some v) ≠ true := by
            rw [hg]
            intro hc
            exact hw (Option.some.inj (of_decide_eq_true hc))
          rw [if_neg hcond]
          rcases hfr2 : (rest.filter (fun g2 => decide (glookup g2 field = some v))).getLast?
            with _ | u
          · simp [hw]
          · rfl

/-- A successful lookup means the key occurs among the keys of the pair
list. -/
theorem dictLookup_isSome_mem {α β : Type} [DecidableEq α] (pairs : List (α × β)) (k : α)
    (h : (dictLookup pairs k).isSome = true) : k ∈ pairs.map Prod.fst := by
  induction pairs with
  | nil => simp [dictLookup] at h
  | cons p rest ih =>
    rw [dictLookup_cons] at h
    rcases hr : dictLookup rest k with _ | v
    · rw [hr] at h
      by_cases hp : p.1 = k
      · simp [← hp]
      · simp [hp] at h
    · exact List.mem_cons_of_mem _ (ih (by simp [hr]))

/-- A key that does not occur among the keys of the pair list looks up to
none. -/
theorem dictLookup_not_mem {α β : Type} [DecidableEq α] (pairs : List (α × β)) (k : α)
    (h : k ∉ pairs.map Prod.fst) : dictLookup pairs k = none := by
  rcases hl : dictLookup pairs k with _ | v
  · rfl
  · exact absurd (dictLookup_isSome_mem pairs k (by simp [hl])) h

/-- Claim C1, counterexample: for an id present in both mappings the match
construction of lines 25-26 associates it with the GenBank record, not the
RefSeq one, because dict.update overwrites the RefSeq hit; and feeding the
full resolution function a catalog creating such an overlap aborts with the
integrity error before any result exists. -/
theorem c1_counterexample :
    dictLookup [(FieldVal.str ['1'], exRecA)] (FieldVal.str ['1']) = some exRecA ∧
    dictLookup [(FieldVal.str ['1'], exRecB)] (FieldVal.str ['1']) = some exRecB ∧
    dictLookup
      (matchIds [(FieldVal.str ['1'], exRecA)] [(FieldVal.str ['1'], exRecB)] [['1']])
      ['1'] = some exRecB ∧
    exRecB ≠ exRecA ∧
    selectGenomesByIds [exRecA, exRecB] [['1']] = .error .catalogIntegrityError := by
  refine ⟨by decide, by decide, by decide, by decide, ?_⟩
  rfl

/-- Claim C1 (amended): for every requested id that has a GenBank hit — in
particular an id present in both mappings — the match construction of
lines 25-26 yields the GenBank record, because the dict.update of the
GenBank matches overwrites any RefSeq match; in the full function an
overlapping id additionally trips the disjointness assertion of line 22
before any result is returned. -/
theorem c1_genbank_precedence (refseq genbank : List (FieldVal × Genome))
    (ids : List PStr) (q : PStr) (g : Genome)
    (hq : q ∈ ids) (hg : dictLookup genbank (.str q) = some g) :
    dictLookup (matchIds refseq genbank ids) q = some g := by
  rw [matchIds_lookup]
  simp [hq, hg]

/-- Witness for the amended claim C1: with the id 1 mapped to different
records in the two mappings, resolution returns the GenBank record. -/
theorem c1_genbank_precedence_witness :
    dictLookup
      (matchIds [(FieldVal.str ['1'], exRecA)] [(FieldVal.str ['1'], exRecB)] [['1']])
      ['1'] = some exRecB :=
  c1_genbank_precedence [(FieldVal.str ['1'], exRecA)] [(FieldVal.str ['1'], exRecB)]
    [['1']] ['1'] exRecB (by decide) (by decide)

/-- Claim C4: whenever some id occurs in the key sets of both indexes built
from the record collection, resolution fails with the integrity error — for
every request list, so before any lookup is attempted. -/
theorem c4_disjoint_namespaces (genomes : List Genome) (ids : List PStr)
    (refseq genbank : List (FieldVal × Genome)) (k : FieldVal)
    (h1 : buildIndex refseqIdKey genomes = .ok refseq)
    (h2 : buildIndex projectIdKey genomes = .ok genbank)
    (hk1 : k ∈ keysOf refseq) (hk2 : k ∈ keysOf genbank) :
    selectGenomesByIds genomes ids = .error .catalogIntegrityError := by
  have hd : disjointKeys refseq genbank = false := by
    rcases hdv : disjointKeys refseq genbank
    · rfl
    · exfalso
      have hall := List.all_eq_true.mp hdv k hk1
      rw [Bool.not_eq_true'] at hall
      have hc : (keysOf genbank).contains k = true := List.elem_eq_true_of_mem hk2
      rw [hc] at hall
      exact Bool.noConfusion hall
  simp [selectGenomesByIds, h1, h2, hd]

/-- Witness for claim C4: a catalog whose second record reuses the RefSeq
project id 1 of the first record as its GenBank project id is rejected with
the integrity error. -/
theorem c4_disjoint_namespaces_witness :
    selectGenomesByIds [exRecA, exRecB] [['9']] = .error .catalogIntegrityError :=
  c4_disjoint_namespaces [exRecA, exRecB] [['9']]
    [(FieldVal.str ['1'], exRecA), (FieldVal.str ['8'], exRecB)]
    [(FieldVal.str ['7'], exRecA), (FieldVal.str ['1'], exRecB)]
    (FieldVal.str ['1']) rfl rfl (by decide) (by decide)

/-- Claim C9: when both indexes build and their key sets are disjoint,
resolution succeeds for every request list — unmatched ids are never fatal —
returning the match mapping together with the warning list of requested ids
without a match; a requested id is present in the result exactly when it
hits one of the two namespaces, and it is warned about exactly when it is
requested and absent from the result. -/
theorem c9_unmatched_ids (genomes : List Genome) (ids : List PStr)
    (refseq genbank : List (FieldVal × Genome)) (q : PStr)
    (h1 : buildIndex refseqIdKey genomes = .ok refseq)
    (h2 : buildIndex projectIdKey genomes = .ok genbank)
    (hd : disjointKeys refseq genbank = true) :
    selectGenomesByIds genomes ids =
      .ok (matchIds refseq genbank ids,
        ids.filter (fun i => (dictLookup (matchIds refseq genbank ids) i).isNone)) ∧
    ((dictLookup (matchIds refseq genbank ids) q).isSome ↔
      q ∈ ids ∧
        ((dictLookup refseq (.str q)).isSome ∨ (dictLookup genbank (.str q)).isSome)) ∧
    (q ∈ ids.filter (fun i => (dictLookup (matchIds refseq genbank ids) i).isNone) ↔
      q ∈ ids ∧ dictLookup (matchIds refseq genbank ids) q = none) := by
  refine ⟨by simp [selectGenomesByIds, h1, h2, hd], ?_, ?_⟩
  · rw [matchIds_lookup]
    by_cases hq : q ∈ ids
    · simp only [hq, if_true, true_and]
      rcases hgb : dictLookup genbank (.str q) with _ | g <;>
        rcases hrf : dictLookup refseq (.str q) with _ | g2 <;> simp
    · simp [hq]
  · rw [List.mem_filter]
    rcases hl : dictLookup (matchIds refseq genbank ids) q with _ | g <;>
      simp [Option.isNone, hl]

/-- Witness for claim C9: requesting one id with a RefSeq hit and one
nonexistent id yields a mapping holding exactly the first and a warning
list holding exactly the second. -/
theorem c9_unmatched_ids_witness :
    selectGenomesByIds [exRecA] [['1'], ['9']] =
      .ok ([(['1'], exRecA)], [['9']]) ∧
    ((dictLookup (matchIds [(FieldVal.str ['1'], exRecA)] [(FieldVal.str ['7'], exRecA)]
        [['1'], ['9']]) ['9']).isSome ↔
      ['9'] ∈ [['1'], ['9']] ∧
        ((dictLookup [(FieldVal.str ['1'], exRecA)] (FieldVal.str ['9'])).isSome ∨
          (dictLookup [(FieldVal.str ['7'], exRecA)] (FieldVal.str ['9'])).isSome)) :=
  ⟨(c9_unmatched_ids [exRecA] [['1'], ['9']]
      [(FieldVal.str ['1'], exRecA)] [(FieldVal.str ['7'], exRecA)] ['0']
      rfl rfl (by decide)).1,
    (c9_unmatched_ids [exRecA] [['1'], ['9']]
      [(FieldVal.str ['1'], exRecA)] [(FieldVal.str ['7'], exRecA)] ['9']
      rfl rfl (by decide)).2.1⟩

/-- Claim C10: when the catalog holds records with an empty RefSeq project
id, the RefSeq index maps the empty string to the last such record in
catalog order, and a requested empty-string id resolves to that record and
is not warned about as unmatched. -/
theorem c10_empty_string_key (genomes : List Genome) (ids : List PStr)
    (refseq genbank : List (FieldVal × Genome)) (r : Genome)
    (h1 : buildIndex refseqIdKey genomes = .ok refseq)
    (h2 : buildIndex projectIdKey genomes = .ok genbank)
    (hd : disjointKeys refseq genbank = true)
    (hr : (genomes.filter
        (fun g => decide (glookup g refseqIdKey = some (.str [])))).getLast? = some r)
    (hq : [] ∈ ids) :
    dictLookup refseq (.str []) = some r ∧
    dictLookup (matchIds refseq genbank ids) [] = some r ∧
    [] ∉ ids.filter (fun i => (dictLookup (matchIds refseq genbank ids) i).isNone) := by
  have href : dictLookup refseq (.str []) = some r := by
    rw [buildIndex_lookup refseqIdKey genomes refseq h1 (.str [])]
    exact hr
  have hkmem : (FieldVal.str []) ∈ keysOf refseq :=
    dictLookup_isSome_mem refseq (.str []) (by simp [href])
  have hgb : dictLookup genbank (.str []) = none := by
    apply dictLookup_not_mem
    intro hmem
    have hall := List.all_eq_true.mp hd (.str []) hkmem
    rw [Bool.not_eq_true'] at hall
    have hc : (keysOf genbank).contains (FieldVal.str []) = true :=
      List.elem_eq_true_of_mem hmem
    rw [hc] at hall
    exact Bool.noConfusion hall
  have hfound : dictLookup (matchIds refseq genbank ids) [] = some r := by
    rw [matchIds_lookup]
    simp [hq, hgb, href]
  refine ⟨href, hfound, ?_⟩
  rw [List.mem_filter]
  simp [hfound]

/-- Witness for claim C10: with two records carrying an empty RefSeq
project id, requesting the empty string resolves to the second record and
produces no warning. -/
theorem c10_empty_string_key_witness :
    dictLookup [(FieldVal.str [], exRecE1), (FieldVal.str [], exRecE2)]
      (FieldVal.str []) = some exRecE2 ∧
    dictLookup
      (matchIds [(FieldVal.str [], exRecE1), (FieldVal.str [], exRecE2)]
        [(FieldVal.str ['5'], exRecE1), (FieldVal.str ['6'], exRecE2)] [[]])
      [] = some exRecE2 :=
  ⟨(c10_empty_string_key [exRecE1, exRecE2] [[]]
      [(FieldVal.str [], exRecE1), (FieldVal.str [], exRecE2)]
      [(FieldVal.str ['5'], exRecE1), (FieldVal.str ['6'], exRecE2)] exRecE2
      rfl rfl (by decide) (by decide) (by decide)).1,
    (c10_empty_string_key [exRecE1, exRecE2] [[]]
      [(FieldVal.str [], exRecE1), (FieldVal.str [], exRecE2)]
      [(FieldVal.str ['5'], exRecE1), (FieldVal.str ['6'], exRecE2)] exRecE2
      rfl rfl (by decide) (by decide) (by decide)).2.1⟩

/-- An empty line is skipped. -/
theorem processLine_empty (req : Bool) (st : ParseState) (l : PStr) (h : l.length = 0) :
    processLine req st l = .ok st := by
  simp [processLine, h]

/-- A comment line carrying the columns marker installs the header. -/
theorem processLine_marker (req : Bool) (st : ParseState) (l : PStr)
    (h1 : ¬ l.length = 0) (h2 : isCommentVals (l.splitOn '\t') = true)
    (h3 : (l.splitOn '\t').headD [] = columnsMarker) :
    processLine req st l = .ok (processHeader st ((l.splitOn '\t').drop 1)) := by
  simp [processLine, h1, h2, h3]
  intro hx
  exact absurd (by simpa using h3) hx

/-- A comment line without the columns marker is skipped. -/
theorem processLine_comment (req : Bool) (st : ParseState) (l : PStr)
    (h1 : ¬ l.length = 0) (h2 : isCommentVals (l.splitOn '\t') = true)
    (h3 : ¬ (l.splitOn '\t').headD [] = columnsMarker) :
    processLine req st l = .ok st := by
  simp [processLine, h1, h2, h3]
  intro hx
  exact absurd (by simpa using hx) h3

/-- A data line with the wrong number of values aborts. -/
theorem processLine_mismatch (req : Bool) (st : ParseState) (l : PStr)
    (h1 : ¬ l.length = 0) (h2 : isCommentVals (l.splitOn '\t') = false)
    (h4 : (l.splitOn '\t').length ≠ st.columns.length) :
    processLine req st l =
      .error (.malformedRow l st.columns.length (l.splitOn '\t').length) := by
  simp [processLine, h1, h2, h4]

/-- A well-formed data line without the filter appends the new record. -/
theorem processLine_data_false (st : ParseState) (l : PStr)
    (h1 : ¬ l.length = 0) (h2 : isCommentVals (l.splitOn '\t') = false)
    (h4 : (l.splitOn '\t').length = st.columns.length) :
    processLine false st l =
      .ok { st with genomes := st.genomes ++ [dataGenome st (l.splitOn '\t')] } := by
  simp [processLine, h1, h2, h4]

/-- A well-formed data line with the filter appends the new record and then
re-filters the whole accumulator. -/
theorem processLine_data_true (st : ParseState) (l : PStr)
    (h1 : ¬ l.length = 0) (h2 : isCommentVals (l.splitOn '\t') = false)
    (h4 : (l.splitOn '\t').length = st.columns.length) :
    processLine true st l =
      match requireRefseqFilter (st.genomes ++ [dataGenome st (l.splitOn '\t')]) with
      | .error e => .error e
      | .ok gs2 => .ok { st with genomes := gs2 } := by
  simp only [processLine, h1, if_false, h2, Bool.false_eq_true, h4, ne_eq,
    not_true_eq_false, if_true]

/-- The require-refseq filter distributes over append: it fails iff one of
the halves fails with the earliest error, and otherwise concatenates the
filtered halves. -/
theorem requireRefseqFilter_append (a b : List Genome) :
    requireRefseqFilter (a ++ b) =
      match requireRefseqFilter a with
      | .error e => .error e
      | .ok a2 =>
        match requireRefseqFilter b with
        | .error e => .error e
        | .ok b2 => .ok (a2 ++ b2) := by
  induction a with
  | nil =>
    simp only [List.nil_append, requireRefseqFilter]
    rcases hb : requireRefseqFilter b with e | b2 <;> simp
  | cons g a ih =>
    rw [List.cons_append]
    simp only [requireRefseqFilter]
    rcases hg : glookup g refseqIdKey with _ | v
    · rfl
    · rw [ih]
      rcases ha : requireRefseqFilter a with e | a2
      · rfl
      · rcases hb : requireRefseqFilter b with e | b2
        · rfl
        · by_cases ht : truthy v <;> simp [ht]

/-- The require-refseq filter is idempotent on its own output. -/
theorem requireRefseqFilter_idem (a a2 : List Genome)
    (h : requireRefseqFilter a = .ok a2) :
    requireRefseqFilter a2 = .ok a2 := by
  induction a generalizing a2 with
  | nil =>
    simp only [requireRefseqFilter] at h
    have h2 : ([] : List Genome) = a2 := Except.ok.inj h
    rw [← h2]
    rfl
  | cons g rest ih =>
    simp only [requireRefseqFilter] at h
    rcases hg : glookup g refseqIdKey with _ | v
    · rw [hg] at h
      exact Except.noConfusion h
    · rw [hg] at h
      rcases hr : requireRefseqFilter rest with e | rest2
      · rw [hr] at h
        exact Except.noConfusion h
      · rw [hr] at h
        have h2 : (if truthy v then g :: rest2 else rest2) = a2 := Except.ok.inj h
        by_cases ht : truthy v
        · rw [if_pos ht] at h2
          rw [← h2]
          simp only [requireRefseqFilter, hg, ih rest2 hr, if_pos ht]
        · rw [if_neg ht] at h2
          rw [← h2]
          exact ih rest2 hr

/-- With the filter disabled the line loop only appends records: from any
starting accumulator its result is the accumulator followed by the records
it produces from the empty accumulator. -/
theorem processLines_false_shift (lines : List PStr) (cols : List PStr)
    (split : List (PStr × Char)) (gs : List Genome) :
    processLines false ⟨cols, split, gs⟩ lines =
      match processLines false ⟨cols, split, []⟩ lines with
      | .error e => .error e
      | .ok out => .ok (gs ++ out) := by
  induction lines generalizing cols split gs with
  | nil => simp [processLines]
  | cons l rest ih =>
    by_cases hlen : l.length = 0
    · simp only [processLines, processLine_empty false _ l hlen]
      exact ih cols split gs
    · by_cases hcom : isCommentVals (l.splitOn '\t') = true
      · by_cases hmark : (l.splitOn '\t').headD [] = columnsMarker
        · simp only [processLines, processLine_marker false _ l hlen hcom hmark,
            processHeader]
          exact ih _ _ gs
        · simp only [processLines, processLine_comment false _ l hlen hcom hmark]
          exact ih cols split gs
      · have hcom2 : isCommentVals (l.splitOn '\t') = false := by
          rcases hv : isCommentVals (l.splitOn '\t')
          · rfl
          · exact absurd hv hcom
        by_cases hcnt : (l.splitOn '\t').length = cols.length
        · simp only [processLines,
            processLine_data_false ⟨cols, split, gs⟩ l hlen hcom2 hcnt,
            processLine_data_false ⟨cols, split, []⟩ l hlen hcom2 hcnt]
          have hdg : dataGenome ⟨cols, split, gs⟩ (l.splitOn '\t') =
              dataGenome ⟨cols, split, []⟩ (l.splitOn '\t') := rfl
          rw [hdg]
          rw [ih cols split (gs ++ [dataGenome ⟨cols, split, []⟩ (l.splitOn '\t')]),
            ih cols split ([] ++ [dataGenome ⟨cols, split, []⟩ (l.splitOn '\t')])]
          rcases hb : processLines false ⟨cols, split, []⟩ rest with e | out <;> simp
        · have hcnt2 : (l.splitOn '\t').length ≠ (⟨cols, split, gs⟩ : ParseState).columns.length :=
            hcnt
          simp only [processLines,
            processLine_mismatch false ⟨cols, split, gs⟩ l hlen hcom2 hcnt2,
            processLine_mismatch false ⟨cols, split, []⟩ l hlen hcom2 hcnt]

/-- Filtering progressively inside the scan agrees with filtering once at
the end: starting from accumulators related by the filter, the flag-set
loop returns a record sequence exactly when filtering the flag-unset loop
result yields that same sequence. -/
theorem processLines_req_filter (lines : List PStr) (cols : List PStr)
    (split : List (PStr × Char)) (gsA gsF : List Genome) (out : List Genome)
    (hf : requireRefseqFilter gsA = .ok gsF) :
    processLines true ⟨cols, split, gsF⟩ lines = .ok out ↔
      (match processLines false ⟨cols, split, gsA⟩ lines with
       | .error e => (Except.error e : Except ParseErr (List Genome))
       | .ok gs => requireRefseqFilter gs) = .ok out := by
  induction lines generalizing cols split gsA gsF with
  | nil =>
    show Except.ok gsF = Except.ok out ↔ requireRefseqFilter gsA = Except.ok out
    rw [hf]
  | cons l rest ih =>
    by_cases hlen : l.length = 0
    · simp only [processLines, processLine_empty true _ l hlen,
        processLine_empty false _ l hlen]
      exact ih cols split gsA gsF hf
    · by_cases hcom : isCommentVals (l.splitOn '\t') = true
      · by_cases hmark : (l.splitOn '\t').headD [] = columnsMarker
        · simp only [processLines, processLine_marker true _ l hlen hcom hmark,
            processLine_marker false _ l hlen hcom hmark, processHeader]
          exact ih _ _ gsA gsF hf
        · simp only [processLines, processLine_comment true _ l hlen hcom hmark,
            processLine_comment false _ l hlen hcom hmark]
          exact ih cols split gsA gsF hf
      · have hcom2 : isCommentVals (l.splitOn '\t') = false := by
          rcases hv : isCommentVals (l.splitOn '\t')
          · rfl
          · exact absurd hv hcom
        by_cases hcnt : (l.splitOn '\t').length = cols.length
        · simp only [processLines,
            processLine_data_true ⟨cols, split, gsF⟩ l hlen hcom2 hcnt,
            processLine_data_false ⟨cols, split, gsA⟩ l hlen hcom2 hcnt]
          have hdg : dataGenome ⟨cols, split, gsF⟩ (l.splitOn '\t') =
              dataGenome ⟨cols, split, gsA⟩ (l.splitOn '\t') := rfl
          rw [hdg]
          have hfF : requireRefseqFilter gsF = .ok gsF :=
            requireRefseqFilter_idem gsA gsF hf
          rcases hg1 : requireRefseqFilter [dataGenome ⟨cols, split, gsA⟩ (l.splitOn '\t')]
            with e | kept
          · have htrue : requireRefseqFilter
                (gsF ++ [dataGenome ⟨cols, split, gsA⟩ (l.splitOn '\t')]) = .error e := by
              rw [requireRefseqFilter_append, hfF, hg1]
            rw [htrue, processLines_false_shift rest cols split
              (gsA ++ [dataGenome ⟨cols, split, gsA⟩ (l.splitOn '\t')])]
            rcases hrest : processLines false ⟨cols, split, []⟩ rest with e2 | out2
            · simp
            · dsimp only
              rw [List.append_assoc, requireRefseqFilter_append gsA
                ([dataGenome ⟨cols, split, gsA⟩ (l.splitOn '\t')] ++ out2), hf,
                requireRefseqFilter_append [dataGenome ⟨cols, split, gsA⟩ (l.splitOn '\t')]
                  out2, hg1]
          · have htrue : requireRefseqFilter
                (gsF ++ [dataGenome ⟨cols, split, gsA⟩ (l.splitOn '\t')]) =
                .ok (gsF ++ kept) := by
              rw [requireRefseqFilter_append, hfF, hg1]
            have hfA2 : requireRefseqFilter
                (gsA ++ [dataGenome ⟨cols, split, gsA⟩ (l.splitOn '\t')]) =
                .ok (gsF ++ kept) := by
              rw [requireRefseqFilter_append, hf, hg1]
            rw [htrue]
            exact ih cols split
              (gsA ++ [dataGenome ⟨cols, split, gsA⟩ (l.splitOn '\t')]) (gsF ++ kept) hfA2
        · have hcnt2 : (l.splitOn '\t').length ≠ (⟨cols, split, gsF⟩ : ParseState).columns.length :=
            hcnt
          have hcnt3 : (l.splitOn '\t').length ≠ (⟨cols, split, gsA⟩ : ParseState).columns.length :=
            hcnt
          simp only [processLines,
            processLine_mismatch true ⟨cols, split, gsF⟩ l hlen hcom2 hcnt2,
            processLine_mismatch false ⟨cols, split, gsA⟩ l hlen hcom2 hcnt3]

/-- Claim C7: for every catalog text, parsing with the require-refseq flag
set — which filters progressively inside the single scan — returns a record
sequence exactly when parsing all rows with the flag unset and then
filtering out the records with an empty (or missing) RefSeq project ID
returns that same sequence. -/
theorem c7_progressive_filter (text : PStr) (out : List Genome) :
    parseGenomesTable text true = .ok out ↔
      (match parseGenomesTable text false with
       | .error e => (Except.error e : Except ParseErr (List Genome))
       | .ok gs => requireRefseqFilter gs) = .ok out :=
  processLines_req_filter (text.splitOn '\n') [] [] [] [] out rfl

/-- Witness for claim C7: on the example catalog, whose second row has an
empty RefSeq project ID, the flag-set parse returns exactly the first
record, which equals filtering the flag-unset parse. -/
theorem c7_progressive_filter_witness :
    parseGenomesTable exCatalogText true =
      .ok [[(['A'], FieldVal.str ['1']),
        (refseqIdKey, FieldVal.str ['2']),
        (['L'], FieldVal.lst [['a'], ['b']])]] :=
  (c7_progressive_filter exCatalogText
    [[(['A'], FieldVal.str ['1']),
      (refseqIdKey, FieldVal.str ['2']),
      (['L'], FieldVal.lst [['a'], ['b']])]]).mpr (by rfl)
